import Mathlib

/-!
# Verification of pandora's k-mer graph and max-likelihood path code

Shallow embedding of the k-mer graph data structures and algorithms of this
repository (`src/src/kmergraph.cpp`, `src/src/kmergraphwithcoverage.cpp`),
together with theorems settling the specification claims about them.

Modelling conventions:
* C++ `std::vector` become Lean `List`s; machine integers become `Nat`/`Int`
  with explicit wrap-around (`% 2^32`) where the source can overflow.
* `float` quantities (log-probabilities, means, thresholds) are modelled by
  `ℚ` with exact arithmetic; the transcendental helpers (`log`, `exp`,
  `lognchoosek2`, the boost negative-binomial pdf), which live outside
  `src/`, are abstracted as function parameters so that the structural
  content of the claims is what gets verified.
* `fatal_error` (declared outside `src/`; per spec §7 it terminates the
  process with a diagnostic) is modelled by an `Except`/`Option` error
  result; undefined behaviour (out-of-bounds `operator[]`) is modelled by a
  distinguished error constructor.
-/

/-! ## Part 1: the plain `KmerGraph` of `src/src/kmergraph.cpp` -/

/-- A k-mer graph node (`kmergraph.cpp` / `kmernode.h`): insertion-rank id,
PRG path (a sequence of half-open intervals), and in/out adjacency.  The C++
stores raw `KmerNode*` pointers; since each node is held exactly once in
`KmerGraph::nodes`, pointers are modelled by node ids. -/
structure KmerNode where
  id : Nat
  path : List (Nat × Nat)
  inNodes : List Nat
  outNodes : List Nat
  deriving DecidableEq

/-- `KmerGraph` of `kmergraph.cpp`: node vector plus the monotonic `next_id`. -/
structure KmerGraph where
  nodes : List KmerNode
  next_id : Nat
  deriving DecidableEq

def KmerGraph.empty : KmerGraph := ⟨[], 0⟩

/-- `KmerGraph::add_node` (`kmergraph.cpp:37`): insert a node with the next id
iff no existing node compares equal to it.  `KmerNode::operator==` is declared
outside `src/`; per spec §4.D ("inserts a node with the next id iff no node
already has that `path`") node equality for the duplicate test is equality of
`path`. -/
def KmerGraph.add_node (g : KmerGraph) (p : List (Nat × Nat)) : KmerGraph :=
  if g.nodes.any (fun n => n.path = p) then g
  else { nodes := g.nodes ++ [⟨g.next_id, p, [], []⟩], next_id := g.next_id + 1 }

/-- Failure modes of `KmerGraph::add_edge` (`kmergraph.cpp:52`):
`assertFailed` is the `assert(from <= nodes.size() && to <= nodes.size())`
firing; `outOfBounds` is the undefined behaviour of `nodes[from]`/`nodes[to]`
when an index equals `nodes.size()` (the assert uses `<=`, so such an index
passes the assert yet indexes the vector out of range). -/
inductive EdgeErr where
  | assertFailed
  | outOfBounds
  deriving DecidableEq

/-- `KmerGraph::add_edge(from, to)` (`kmergraph.cpp:52-64`): after the
assert, appends `nodes[to]` to `outNodes(from)` unless already present, and
`nodes[from]` to `inNodes(to)` unless already present (pointer comparison,
modelled by id membership). -/
def KmerGraph.add_edge (g : KmerGraph) (i j : Nat) : Except EdgeErr KmerGraph :=
  if ¬(i ≤ g.nodes.length ∧ j ≤ g.nodes.length) then .error .assertFailed
  else if h : i < g.nodes.length ∧ j < g.nodes.length then
    let ni := g.nodes.get ⟨i, h.1⟩
    let nodes1 :=
      if j ∈ ni.outNodes then g.nodes
      else g.nodes.set i { ni with outNodes := ni.outNodes ++ [j] }
    let nj := nodes1.getD j ni
    let nodes2 :=
      if i ∈ nj.inNodes then nodes1
      else nodes1.set j { nj with inNodes := nj.inNodes ++ [i] }
    .ok { g with nodes := nodes2 }
  else .error .outOfBounds

/-- One step of the level bucketing of `KmerGraph::get_node_order`
(`kmergraph.cpp:136-168`).  The loop first counts a bubble end (node with
more than one in-edge), asserts the running level is non-negative, places
the node in `nodes_by_level[level]` (10 buckets are allocated; a level `≥ 10`
indexes the vector out of range, modelled as `none`), and then counts a
bubble start (node with more than one out-edge). -/
def KmerGraph.node_order_aux :
    List KmerNode → Int → Int → List (List Nat) → Option (List (List Nat))
  | [], _, _, buckets => some buckets
  | nd :: rest, starts, ends, buckets =>
    let ends' := if nd.inNodes.length > 1 then ends + 1 else ends
    let lvl := starts - ends'
    if lvl < 0 then none
    else if lvl ≥ 10 then none
    else
      let k := lvl.toNat
      let buckets' := buckets.set k (buckets.getD k [] ++ [nd.id])
      let starts' := if nd.outNodes.length > 1 then starts + 1 else starts
      KmerGraph.node_order_aux rest starts' ends' buckets'

/-- `KmerGraph::get_node_order` (`kmergraph.cpp:136-168`): bucket the nodes in
insertion order by running bubble level, then emit buckets from level 9 down
to level 0. -/
def KmerGraph.get_node_order (g : KmerGraph) : Option (List Nat) :=
  (KmerGraph.node_order_aux g.nodes 0 0 (List.replicate 10 [])).map
    (fun buckets => buckets.reverse.flatten)

/-- The running bubble level assigned to each node by `get_node_order`, in
insertion order: a node's level counts the bubble starts among strictly
earlier nodes minus the bubble ends among nodes up to and including it. -/
def KmerGraph.bubble_levels : List KmerNode → Int → Int → List Int
  | [], _, _ => []
  | nd :: rest, starts, ends =>
    let ends' := if nd.inNodes.length > 1 then ends + 1 else ends
    let starts' := if nd.outNodes.length > 1 then starts + 1 else starts
    (starts - ends') :: KmerGraph.bubble_levels rest starts' ends'

/-! ### Concrete graphs used by the claims about `kmergraph.cpp` -/

/-- The seven-node graph of `KmerGraphTest.getNodeOrder`
(`src/test/kmergraph_test.cpp:199`), built through `add_node` with seven
distinct paths. -/
def c4base : KmerGraph :=
  (List.range 7).foldl (fun g i => g.add_node [(i, i + 1)]) KmerGraph.empty

/-- The edge set `{0→1, 1→2, 0→3, 3→4, 0→5, 2→6, 4→6, 5→6}`. -/
def c4edges : List (Nat × Nat) :=
  [(0,1), (1,2), (0,3), (3,4), (0,5), (2,6), (4,6), (5,6)]

/-- The graph on nodes `0..6` with the bubble edges, built through
`add_edge`. -/
def c4graph : Except EdgeErr KmerGraph :=
  c4edges.foldlM (fun g e => g.add_edge e.1 e.2) c4base

/-- A two-node graph as in `KmerGraphTest.addEdge`
(`src/test/kmergraph_test.cpp:104-129`). -/
def c8graph : KmerGraph :=
  (KmerGraph.empty.add_node [(0, 3)]).add_node [(0, 4)]


/-! ### Permutation lemmas for `get_node_order` -/

theorem flatten_reverse_perm (l : List (List α)) : l.reverse.flatten.Perm l.flatten := by
  induction l with
  | nil => simp
  | cons a l ih =>
    simp only [List.reverse_cons, List.flatten_append, List.flatten_cons, List.flatten_nil,
      List.append_nil]
    exact (List.perm_append_comm).trans (ih.append_left a)

theorem flatten_set_perm (l : List (List α)) (k : Nat) (x : α) (hk : k < l.length) :
    (l.set k (l.getD k [] ++ [x])).flatten.Perm (x :: l.flatten) := by
  induction l generalizing k with
  | nil => simp at hk
  | cons b rest ih =>
    cases k with
    | zero =>
      simp only [List.set, List.getD, List.flatten_cons, List.getElem?_cons_zero,
        Option.getD_some, List.append_assoc, List.singleton_append]
      exact List.perm_middle
    | succ k =>
      have hk' : k < rest.length := by simpa using hk
      simp only [List.set, List.flatten_cons]
      have h1 : (b :: rest).getD (k + 1) [] = rest.getD k [] := by
        simp [List.getD]
      rw [h1]
      exact ((ih k hk').append_left b).trans List.perm_middle

theorem node_order_aux_perm (nds : List KmerNode) :
    ∀ (s e : Int) (buckets : List (List Nat)), buckets.length = 10 →
    (∀ lvl ∈ KmerGraph.bubble_levels nds s e, 0 ≤ lvl ∧ lvl < 10) →
    ∃ out, KmerGraph.node_order_aux nds s e buckets = some out ∧
      out.flatten.Perm (buckets.flatten ++ nds.map KmerNode.id) := by
  induction nds with
  | nil =>
    intro s e buckets _ _
    exact ⟨buckets, rfl, by simp⟩
  | cons nd rest ih =>
    intro s e buckets hlen hlvl
    have hcons : KmerGraph.bubble_levels (nd :: rest) s e
        = (s - (if nd.inNodes.length > 1 then e + 1 else e)) ::
          KmerGraph.bubble_levels rest
            (if nd.outNodes.length > 1 then s + 1 else s)
            (if nd.inNodes.length > 1 then e + 1 else e) := rfl
    have hhead : 0 ≤ s - (if nd.inNodes.length > 1 then e + 1 else e) ∧
        s - (if nd.inNodes.length > 1 then e + 1 else e) < 10 :=
      hlvl _ (by rw [hcons]; exact List.mem_cons_self _ _)
    have htail : ∀ lvl ∈ KmerGraph.bubble_levels rest
        (if nd.outNodes.length > 1 then s + 1 else s)
        (if nd.inNodes.length > 1 then e + 1 else e), 0 ≤ lvl ∧ lvl < 10 := by
      intro lvl h
      exact hlvl _ (by rw [hcons]; exact List.mem_cons_of_mem _ h)
    set e' := if nd.inNodes.length > 1 then e + 1 else e with he'
    have h0 : ¬ s - e' < 0 := not_lt.mpr hhead.1
    have h10 : ¬ s - e' ≥ 10 := not_le.mpr hhead.2
    set k := (s - e').toNat with hk
    set buckets' := buckets.set k (buckets.getD k [] ++ [nd.id]) with hb'
    have hlen' : buckets'.length = 10 := by simp [hb', hlen]
    obtain ⟨out, hsome, hperm⟩ :=
      ih (if nd.outNodes.length > 1 then s + 1 else s) e' buckets' hlen' htail
    refine ⟨out, ?_, ?_⟩
    · show (if s - e' < 0 then none
        else if s - e' ≥ 10 then none
        else KmerGraph.node_order_aux rest
          (if nd.outNodes.length > 1 then s + 1 else s) e' buckets') = some out
      rw [if_neg h0, if_neg h10]
      exact hsome
    · have hset : buckets'.flatten.Perm (nd.id :: buckets.flatten) :=
        flatten_set_perm buckets k nd.id (by omega)
      refine hperm.trans ((hset.append_right _).trans ?_)
      simp only [List.map_cons]
      exact List.perm_middle.symm

/-- **C10.** `get_node_order` allocates exactly 10 level buckets; whenever the
running bubble level (ends counted before placing a node, starts after) stays
in `0..9` at every node, the function succeeds and its result visits every
node of the graph exactly once. -/
theorem claim_C10_node_order_total_perm (g : KmerGraph)
    (h : ∀ lvl ∈ KmerGraph.bubble_levels g.nodes 0 0, 0 ≤ lvl ∧ lvl < 10) :
    ∃ l, g.get_node_order = some l ∧ l.Perm (g.nodes.map KmerNode.id) := by
  obtain ⟨out, hsome, hperm⟩ :=
    node_order_aux_perm g.nodes 0 0 (List.replicate 10 []) (by simp) h
  refine ⟨out.reverse.flatten, ?_, ?_⟩
  · show (KmerGraph.node_order_aux g.nodes 0 0 (List.replicate 10 [])).map
      (fun buckets => buckets.reverse.flatten) = some out.reverse.flatten
    rw [hsome]
    rfl
  · refine (flatten_reverse_perm out).trans (hperm.trans ?_)
    simp

/-- A three-node chain with single in/out edges everywhere, whose running
bubble level is `0` at every node. -/
def c10chain : KmerGraph :=
  ⟨[⟨0, [(0, 1)], [], [1]⟩, ⟨1, [(1, 2)], [0], [2]⟩, ⟨2, [(2, 3)], [1], []⟩], 3⟩

/-- Witness for C10: on a concrete chain the hypothesis holds and
`get_node_order` returns a permutation of the node ids. -/
theorem claim_C10_node_order_total_perm_witness :
    ∃ l, c10chain.get_node_order = some l ∧
      l.Perm (c10chain.nodes.map KmerNode.id) :=
  claim_C10_node_order_total_perm c10chain (by decide)

/-- **C4.** `get_node_order` walks the nodes in insertion order, assigns each
the running bubble level, and emits the level groups deepest first: on the
graph with nodes `0..6` and edges `{0→1, 1→2, 0→3, 3→4, 0→5, 2→6, 4→6, 5→6}`
the computed levels are `[0,1,1,1,1,1,0]` and the emitted order is exactly
`[1,2,3,4,5,0,6]`. -/
theorem claim_C4_topo_order :
    Except.map KmerGraph.get_node_order c4graph = .ok (some [1, 2, 3, 4, 5, 0, 6]) ∧
    Except.map (fun g => KmerGraph.bubble_levels g.nodes 0 0) c4graph
      = .ok [0, 1, 1, 1, 1, 1, 0] := by
  exact ⟨rfl, rfl⟩

/-- **C8.** On the two-node graph of `KmerGraphTest.addEdge`:
`add_edge 0 1` installs the reciprocal references and repeating it changes
nothing; `add_edge 3 1` trips the assert; but `add_edge 0 2`, which the claim
and the test (`kmergraph_test.cpp:128`) require to fail, passes the
`from <= nodes.size()` assert and reaches the out-of-range vector access
`nodes[2]` instead. -/
theorem claim_C8_add_edge :
    (Except.map (fun g => ((g.nodes.getD 0 ⟨0, [], [], []⟩).outNodes,
        (g.nodes.getD 1 ⟨0, [], [], []⟩).inNodes)) (c8graph.add_edge 0 1)
      = .ok ([1], [0])) ∧
    ((c8graph.add_edge 0 1).bind (fun g => g.add_edge 0 1) = c8graph.add_edge 0 1) ∧
    (c8graph.add_edge 3 1 = .error .assertFailed) ∧
    (c8graph.add_edge 0 2 = .error .outOfBounds) := by
  exact ⟨rfl, rfl, rfl, rfl⟩

/-! ## Part 2: `KmerGraphWithCoverage` of `src/src/kmergraphwithcoverage.cpp` -/

/-- `pandora::Strand`. -/
inductive Strand where
  | forward
  | reverse
  deriving DecidableEq

/-- A node of the coverage-augmented k-mer graph (`kmergraphwithcoverage.cpp`).
Only the fields the verified operations read are carried: the id, the length
of the PRG path (`path.length() == 0` identifies sentinels), and the
adjacency as id lists (the C++ `weak_ptr` out/in-node references, which the
code always uses through `->id`). -/
structure KmerNodeC where
  id : Nat
  pathLen : Nat
  out_nodes : List Nat
  in_nodes : List Nat
  deriving DecidableEq

/-- The state of a `KmerGraphWithCoverage` together with its borrowed
`KmerGraph` (`kmer_prg`): the node vector, the `sorted_nodes` topological
view, the per-node per-sample `(forward, reverse)` coverage vector and the
scalar model parameters.  `float` parameters are `ℚ` (exact arithmetic in
place of IEEE rounding). -/
structure KGC where
  nodes : List KmerNodeC
  sortedNodes : List KmerNodeC
  covg : List (List (Nat × Nat))
  numReads : Nat
  k : Nat
  binP : ℚ
  nbP : ℚ
  nbR : ℚ
  thresh : ℚ
  deriving DecidableEq

/-- The abstracted real-valued helpers, all living outside `src/`:
`log`/`exp` from `<cmath>`, `lognchoosek2` from the utils, and the logarithm
of the boost negative-binomial pdf at the observed coverage.  The claims are
proved for every interpretation of these. -/
structure RealOps where
  log : ℚ → ℚ
  exp : ℚ → ℚ
  lognchoosek2 : Nat → Nat → Nat → ℚ
  nbinLogPdf : ℚ → ℚ → Nat → ℚ

/-- `std::numeric_limits<float>::lowest()`, exactly. -/
def lowestFloat : ℚ := -(2 ^ 128 - 2 ^ 104)

/-- A default node used where the C++ dereferences without a bounds check;
the theorems never depend on it. -/
def dummyNodeC : KmerNodeC := ⟨0, 1, [], []⟩

/-- `KmerGraphWithCoverage::get_covg` (`kmergraphwithcoverage.cpp:67-81`):
returns `0` when the sample slot is absent, else the stored strand counter.
(The C++ indexes `node_index_to_sample_coverage[node_id]` without a bounds
check; an out-of-range node reads as an empty slot list here, and every
theorem that needs it hypothesises the node is in range.) -/
def KGC.get_covg (g : KGC) (node_id : Nat) (strand : Strand) (sample_id : Nat) : Nat :=
  let slots := g.covg.getD node_id []
  if slots.length ≤ sample_id then 0
  else match strand with
    | .forward => (slots.getD sample_id (0, 0)).1
    | .reverse => (slots.getD sample_id (0, 0)).2

/-- Modelled from the spec: `get_forward_covg` is declared outside `src/`;
per spec §4.E it is the forward-strand coverage read. -/
def KGC.get_forward_covg (g : KGC) (node_id : Nat) (sample_id : Nat) : Nat :=
  g.get_covg node_id .forward sample_id

/-- Modelled from the spec: `get_reverse_covg` is declared outside `src/`;
per spec §4.E it is the reverse-strand coverage read. -/
def KGC.get_reverse_covg (g : KGC) (node_id : Nat) (sample_id : Nat) : Nat :=
  g.get_covg node_id .reverse sample_id

/-- Failure modes of the coverage writes: `sampleOutOfRange` is the
`fatal_error` on an unallocated sample slot; `nodeOutOfRange` models the
undefined `node_index_to_sample_coverage[node_id]` access that precedes it
when the node id itself is out of range. -/
inductive CovgErr where
  | sampleOutOfRange
  | nodeOutOfRange
  deriving DecidableEq

/-- `KmerGraphWithCoverage::increment_covg` (`kmergraphwithcoverage.cpp:42-65`):
check the sample slot, then increment the strand counter unless it already
holds `UINT16_MAX`. -/
def KGC.increment_covg (g : KGC) (node_id : Nat) (strand : Strand) (sample_id : Nat) :
    Except CovgErr KGC :=
  if h : node_id < g.covg.length then
    let slots := g.covg.get ⟨node_id, h⟩
    if sample_id < slots.length then
      let pr := slots.getD sample_id (0, 0)
      let pr' := match strand with
        | .forward => if pr.1 < 65535 then (pr.1 + 1, pr.2) else pr
        | .reverse => if pr.2 < 65535 then (pr.1, pr.2 + 1) else pr
      .ok { g with covg := g.covg.set node_id (slots.set sample_id pr') }
    else .error .sampleOutOfRange
  else .error .nodeOutOfRange

/-- `KmerGraphWithCoverage::coverage_is_zeroes` (`kmergraphwithcoverage.cpp:214`):
walks **all** nodes of `kmer_prg->nodes` (sentinels included) and reports
whether every forward+reverse coverage is zero. -/
def KGC.coverage_is_zeroes (g : KGC) (sample_id : Nat) : Bool :=
  g.nodes.all (fun n =>
    g.get_forward_covg n.id sample_id + g.get_reverse_covg n.id sample_id == 0)

/-- A `fatal_error` raised by the probability code (per spec §7 these
terminate the process; the constructors name the failing check). -/
inductive ProbErr where
  | noReadsMapped
  | binomialPUnset
  | nodeMissing
  | binomialParametersNotOk
  | invalidModel
  deriving DecidableEq

/-- `KmerGraphWithCoverage::set_binomial_parameter_p`
(`kmergraphwithcoverage.cpp:28-40`): requires `k ≠ 0` and `0 < e_rate < 1`,
then sets `binomial_parameter_p = 1 / exp(e_rate * k)`. -/
def KGC.set_binomial_parameter_p (R : RealOps) (g : KGC) (e_rate : ℚ) :
    Except ProbErr KGC :=
  if g.k ≠ 0 ∧ 0 < e_rate ∧ e_rate < 1 then
    .ok { g with binP := 1 / R.exp (e_rate * g.k) }
  else .error .binomialParametersNotOk

/-- `KmerGraphWithCoverage::bin_prob(node_id, num, sample_id)`
(`kmergraphwithcoverage.cpp:152-188`): after the `p ≠ 1` and node-existence
checks, returns `0` on the first or last node of `sorted_nodes`, the
overdispersed bodge `lognchoosek2(s, xf, xr) + s·log(p/2)` when the summed
coverage `s` exceeds `num`, and the binomial log-likelihood
`lognchoosek2(num, xf, xr) + s·log(p/2) + (num−s)·log(1−p)` otherwise. -/
def KGC.bin_prob2 (R : RealOps) (g : KGC) (node_id num sample_id : Nat) :
    Except ProbErr ℚ :=
  if g.binP = 1 then .error .binomialPUnset
  else if ¬ node_id < g.nodes.length then .error .nodeMissing
  else
    let xf := g.get_forward_covg node_id sample_id
    let xr := g.get_reverse_covg node_id sample_id
    let s := xf + xr
    if node_id = (g.sortedNodes.headD dummyNodeC).id ∨
        node_id = (g.sortedNodes.getLastD dummyNodeC).id then
      .ok 0
    else if s > num then
      .ok (R.lognchoosek2 s xf xr + s * R.log (g.binP / 2))
    else
      .ok (R.lognchoosek2 num xf xr + s * R.log (g.binP / 2)
        + (num - s : Nat) * R.log (1 - g.binP))

/-- `KmerGraphWithCoverage::bin_prob(node_id, sample_id)`
(`kmergraphwithcoverage.cpp:142-150`): fails unless reads were mapped, then
delegates with `num = num_reads`. -/
def KGC.bin_prob (R : RealOps) (g : KGC) (node_id sample_id : Nat) :
    Except ProbErr ℚ :=
  if g.numReads = 0 then .error .noReadsMapped
  else g.bin_prob2 R node_id g.numReads sample_id

/-- `KmerGraphWithCoverage::lin_prob` (`kmergraphwithcoverage.cpp:130-140`):
`log(covg / num_reads)`, failing when no reads were mapped. -/
def KGC.lin_prob (R : RealOps) (g : KGC) (node_id sample_id : Nat) :
    Except ProbErr ℚ :=
  if g.numReads = 0 then .error .noReadsMapped
  else
    let c := g.get_forward_covg node_id sample_id + g.get_reverse_covg node_id sample_id
    .ok (R.log ((c : ℚ) / g.numReads))

/-- `KmerGraphWithCoverage::nbin_prob` (`kmergraphwithcoverage.cpp:119-128`):
the log of the negative-binomial pdf at the summed coverage, floored at
`lowest_float / 1000`. -/
def KGC.nbin_prob (R : RealOps) (g : KGC) (node_id sample_id : Nat) : ℚ :=
  let c := g.get_forward_covg node_id sample_id + g.get_reverse_covg node_id sample_id
  max (R.nbinLogPdf g.nbR g.nbP c) (lowestFloat / 1000)

/-- `KmerGraphWithCoverage::get_prob` (`kmergraphwithcoverage.cpp:190-212`):
stringly-typed dispatch over `"nbin"`, `"bin"` (with its own parameter
check) and `"lin"`; anything else is fatal. -/
def KGC.get_prob (R : RealOps) (g : KGC) (prob_model : String)
    (node_id sample_id : Nat) : Except ProbErr ℚ :=
  if prob_model = "nbin" then .ok (g.nbin_prob R node_id sample_id)
  else if prob_model = "bin" then
    if g.binP < 1 ∧ g.numReads > 0 then g.bin_prob R node_id sample_id
    else .error .binomialParametersNotOk
  else if prob_model = "lin" then g.lin_prob R node_id sample_id
  else .error .invalidModel

/-- Decrement of a `uint32_t`, exactly: `0 - 1` wraps to `2^32 - 1`. -/
def sub_u32 (x : Nat) : Nat := (x + (2 ^ 32 - 1)) % 2 ^ 32

/-- The divisor computed by `KmerGraphWithCoverage::prob_path`
(`kmergraphwithcoverage.cpp:565-583`): `uint32_t len = kpath.size()`,
decremented once for an empty-path first node and once for an empty-path
last node (unsigned arithmetic, so a lone sentinel underflows to
`2^32 - 1`), then floored at 1.  On an empty path the C++ reads `kpath[0]`
out of bounds; the default head value here is immaterial, every theorem
hypothesises non-emptiness. -/
def code_path_len (kpath : List KmerNodeC) : Nat :=
  let len0 := kpath.length % 2 ^ 32
  let len1 := if (kpath.headD dummyNodeC).pathLen = 0 then sub_u32 len0 else len0
  let len2 := if (kpath.getLastD dummyNodeC).pathLen = 0 then sub_u32 len1 else len1
  if len2 = 0 then 1 else len2

/-- The sum of `get_prob` over a path, in evaluation order; a fatal error in
any node aborts the whole computation, as in the C++. -/
def KGC.sum_probs (R : RealOps) (g : KGC) (kpath : List KmerNodeC)
    (sample_id : Nat) (prob_model : String) : Except ProbErr ℚ :=
  kpath.foldlM (fun acc n => (g.get_prob R prob_model n.id sample_id).map (acc + ·)) 0

/-- `KmerGraphWithCoverage::prob_path` (`kmergraphwithcoverage.cpp:565-583`):
sum of per-node log-probabilities divided by the (underflow-prone) effective
length. -/
def KGC.prob_path (R : RealOps) (g : KGC) (kpath : List KmerNodeC)
    (sample_id : Nat) (prob_model : String) : Except ProbErr ℚ :=
  (g.sum_probs R kpath sample_id prob_model).map (fun s => s / code_path_len kpath)

/-- The effective length in the words of the spec (§4.E): the path length
minus 1 for each sentinel endpoint, with minimum 1.  Used only to compare
`prob_path` against the claim. -/
def spec_effective_len (kpath : List KmerNodeC) : Nat :=
  let hd := if (kpath.headD dummyNodeC).pathLen = 0 then 1 else 0
  let tl := if (kpath.getLastD dummyNodeC).pathLen = 0 then 1 else 0
  max (kpath.length - hd - tl) 1

/-! ### List update helper lemmas -/

theorem getD_set_self {α : Type _} :
    ∀ (l : List α) (i : Nat) (a d : α), i < l.length → (l.set i a).getD i d = a
  | [], _, _, _, h => absurd h (by simp)
  | _ :: _, 0, _, _, _ => rfl
  | _ :: xs, i + 1, a, d, h => getD_set_self xs i a d (by simpa using h)

theorem getD_set_ne {α : Type _} :
    ∀ (l : List α) (i j : Nat) (a d : α), i ≠ j → (l.set i a).getD j d = l.getD j d
  | [], _, _, _, _, _ => by simp
  | _ :: _, 0, 0, _, _, h => absurd rfl h
  | _ :: _, 0, _ + 1, _, _, _ => rfl
  | _ :: _, _ + 1, 0, _, _, _ => rfl
  | _ :: xs, i + 1, j + 1, a, d, h =>
    getD_set_ne xs i j a d (fun hc => h (by omega))

theorem getD_of_lt {α : Type _} :
    ∀ (l : List α) (i : Nat) (d : α) (h : i < l.length), l.getD i d = l.get ⟨i, h⟩
  | _ :: _, 0, _, _ => rfl
  | _ :: xs, i + 1, d, h => getD_of_lt xs i d (by simpa using h)

/-- **C6.** On an allocated slot, `increment_covg` bumps exactly the addressed
16-bit counter, saturating at `UINT16_MAX`, and leaves every other
node/sample/strand counter unchanged; on an unallocated sample slot it fails
with the `SampleOutOfRange` fatal error. -/
theorem claim_C6_increment_covg (g : KGC) (node_id : Nat) (strand : Strand)
    (sample_id : Nat) (hn : node_id < g.covg.length) :
    (∀ _ : sample_id < (g.covg.get ⟨node_id, hn⟩).length, ∃ g',
      g.increment_covg node_id strand sample_id = .ok g' ∧
      g'.get_covg node_id strand sample_id =
        (if g.get_covg node_id strand sample_id < 65535 then
          g.get_covg node_id strand sample_id + 1
        else g.get_covg node_id strand sample_id) ∧
      (∀ n str s, ¬(n = node_id ∧ s = sample_id ∧ str = strand) →
        g'.get_covg n str s = g.get_covg n str s)) ∧
    ((g.covg.get ⟨node_id, hn⟩).length ≤ sample_id →
      g.increment_covg node_id strand sample_id = .error .sampleOutOfRange) := by
  constructor
  · intro hs
    set slots := g.covg.get ⟨node_id, hn⟩ with hslots
    set pr := slots.getD sample_id (0, 0) with hpr
    set pr' := (match strand with
      | .forward => if pr.1 < 65535 then (pr.1 + 1, pr.2) else pr
      | .reverse => if pr.2 < 65535 then (pr.1, pr.2 + 1) else pr) with hpr'
    refine ⟨{ g with covg := g.covg.set node_id (slots.set sample_id pr') }, ?_, ?_, ?_⟩
    · simp only [KGC.increment_covg, dif_pos hn, if_pos hs]
    · have hcd : (g.covg.set node_id (slots.set sample_id pr')).getD node_id []
          = slots.set sample_id pr' := getD_set_self _ _ _ _ (by simpa using hn)
      have hgd : g.covg.getD node_id [] = slots := by
        rw [hslots, getD_of_lt _ _ _ hn]
      have hlen : (slots.set sample_id pr').length = slots.length := by simp
      have hsd : (slots.set sample_id pr').getD sample_id (0, 0) = pr' :=
        getD_set_self _ _ _ _ (by simpa using hs)
      simp only [KGC.get_covg, hcd, hgd, hlen, hsd]
      rw [if_neg (not_le.mpr hs), if_neg (not_le.mpr hs)]
      cases strand <;> simp only [hpr'] <;> split <;> simp_all
    · intro n str s hne
      by_cases hn' : n = node_id
      · subst hn'
        have hcd : (g.covg.set n (slots.set sample_id pr')).getD n []
            = slots.set sample_id pr' := getD_set_self _ _ _ _ (by simpa using hn)
        have hgd : g.covg.getD n [] = slots := by
          rw [hslots, getD_of_lt _ _ _ hn]
        have hlen : (slots.set sample_id pr').length = slots.length := by simp
        by_cases hs' : s = sample_id
        · subst hs'
          have hstr : str ≠ strand := by tauto
          have hsd : (slots.set s pr').getD s (0, 0) = pr' :=
            getD_set_self _ _ _ _ (by simpa using hs)
          simp only [KGC.get_covg, hcd, hgd, hlen, hsd]
          cases str <;> cases strand <;> first
            | exact absurd rfl hstr
            | (rw [← hpr]; simp only [hpr']; simp [apply_ite Prod.fst, apply_ite Prod.snd])
        · have hsd : (slots.set sample_id pr').getD s (0, 0) = slots.getD s (0, 0) :=
            getD_set_ne _ _ _ _ _ (fun hc => hs' hc.symm)
          simp only [KGC.get_covg, hcd, hgd, hlen, hsd]
      · have hcd : (g.covg.set node_id (slots.set sample_id pr')).getD n []
            = g.covg.getD n [] := getD_set_ne _ _ _ _ _ (fun hc => hn' hc.symm)
        simp only [KGC.get_covg, hcd]
  · intro hs
    simp only [KGC.increment_covg, dif_pos hn, if_neg (not_lt.mpr hs)]

/-- A two-node, one-sample coverage state used for concrete checks. -/
def c6g : KGC :=
  { nodes := [⟨0, 0, [1], []⟩, ⟨1, 0, [], [0]⟩]
    sortedNodes := [⟨0, 0, [1], []⟩, ⟨1, 0, [], [0]⟩]
    covg := [[(3, 65535)], [(0, 7)]]
    numReads := 0, k := 0, binP := 1, nbP := 0, nbR := 0, thresh := 0 }

/-- Witness for C6 at a concrete state: the forward counter of node 0 goes
from 3 to 4, the saturated reverse counter stays at 65535, the unrelated
counter of node 1 is untouched, and sample 1 is rejected. -/
theorem claim_C6_increment_covg_witness :
    (∃ g', c6g.increment_covg 0 .forward 0 = .ok g' ∧
      g'.get_covg 0 .forward 0 = (if c6g.get_covg 0 .forward 0 < 65535 then
        c6g.get_covg 0 .forward 0 + 1 else c6g.get_covg 0 .forward 0) ∧
      (∀ n str s, ¬(n = 0 ∧ s = 0 ∧ str = Strand.forward) →
        g'.get_covg n str s = c6g.get_covg n str s)) ∧
    c6g.increment_covg 0 .forward 1 = .error .sampleOutOfRange := by
  constructor
  · exact (claim_C6_increment_covg c6g 0 .forward 0 (by decide)).1 (by decide)
  · exact (claim_C6_increment_covg c6g 0 .forward 1 (by decide)).2 (by decide)

/-- A coverage state whose only non-zero coverage sits on the source
sentinel: all non-sentinel nodes are at zero, yet `coverage_is_zeroes`
reports `false` because the loop visits the sentinels too. -/
def c7g : KGC :=
  { nodes := [⟨0, 0, [1], []⟩, ⟨1, 3, [2], [0]⟩, ⟨2, 0, [], [1]⟩]
    sortedNodes := [⟨0, 0, [1], []⟩, ⟨1, 3, [2], [0]⟩, ⟨2, 0, [], [1]⟩]
    covg := [[(1, 0)], [(0, 0)], [(0, 0)]]
    numReads := 0, k := 0, binP := 1, nbP := 0, nbR := 0, thresh := 0 }

/-- Counterexample to C7 as stated: in `c7g` every node other than the
source and sink has zero coverage for sample 0, yet `coverage_is_zeroes`
returns `false`, because the C++ loop runs over **all** of
`kmer_prg->nodes`, sentinels included. -/
theorem claim_C7_counterexample :
    c7g.coverage_is_zeroes 0 = false ∧
    ∀ n ∈ c7g.nodes, n.id ≠ (c7g.sortedNodes.headD dummyNodeC).id →
      n.id ≠ (c7g.sortedNodes.getLastD dummyNodeC).id →
      c7g.get_forward_covg n.id 0 + c7g.get_reverse_covg n.id 0 = 0 := by
  decide

/-- **C7 (amended).** `coverage_is_zeroes(sample_id)` returns true iff every
node of the graph — sentinels included — has forward plus reverse coverage
zero for that sample. -/
theorem claim_C7_coverage_is_zeroes (g : KGC) (sample_id : Nat) :
    g.coverage_is_zeroes sample_id = true ↔
      ∀ n ∈ g.nodes,
        g.get_forward_covg n.id sample_id + g.get_reverse_covg n.id sample_id = 0 := by
  simp [KGC.coverage_is_zeroes, List.all_eq_true]

/-- Witness for C7 on an all-zero concrete state. -/
theorem claim_C7_coverage_is_zeroes_witness :
    ({ c7g with covg := [[(0, 0)], [(0, 0)], [(0, 0)]] } : KGC).coverage_is_zeroes 0
      = true :=
  (claim_C7_coverage_is_zeroes _ 0).mpr (by decide)

/-- **C3.** The binomial model: `bin_prob` fails when no reads were mapped or
when `binomial_parameter_p` is still at its unset value `1`;
`set_binomial_parameter_p` installs `p = 1/exp(e_rate·k)`; and on an existing
node it returns `0` for the sentinel source/sink, the overflow formula
`lognchoosek2(s,xf,xr) + s·log(p/2)` when the summed coverage `s` exceeds
`num_reads`, and `lognchoosek2(n,xf,xr) + s·log(p/2) + (n−s)·log(1−p)`
otherwise. -/
theorem claim_C3_bin_prob (R : RealOps) (g : KGC) (node_id sample_id : Nat) :
    (g.numReads = 0 → g.bin_prob R node_id sample_id = .error .noReadsMapped) ∧
    (g.numReads ≠ 0 → g.binP = 1 →
      g.bin_prob R node_id sample_id = .error .binomialPUnset) ∧
    (∀ e_rate : ℚ, g.k ≠ 0 → 0 < e_rate → e_rate < 1 →
      g.set_binomial_parameter_p R e_rate
        = .ok { g with binP := 1 / R.exp (e_rate * g.k) }) ∧
    (g.numReads ≠ 0 → g.binP ≠ 1 → node_id < g.nodes.length →
      g.bin_prob R node_id sample_id = .ok (
        if node_id = (g.sortedNodes.headD dummyNodeC).id ∨
            node_id = (g.sortedNodes.getLastD dummyNodeC).id then 0
        else if g.get_forward_covg node_id sample_id
            + g.get_reverse_covg node_id sample_id > g.numReads then
          R.lognchoosek2
              (g.get_forward_covg node_id sample_id
                + g.get_reverse_covg node_id sample_id)
              (g.get_forward_covg node_id sample_id)
              (g.get_reverse_covg node_id sample_id)
            + (g.get_forward_covg node_id sample_id
                + g.get_reverse_covg node_id sample_id : Nat) * R.log (g.binP / 2)
        else
          R.lognchoosek2 g.numReads (g.get_forward_covg node_id sample_id)
              (g.get_reverse_covg node_id sample_id)
            + (g.get_forward_covg node_id sample_id
                + g.get_reverse_covg node_id sample_id : Nat) * R.log (g.binP / 2)
            + ((g.numReads - (g.get_forward_covg node_id sample_id
                + g.get_reverse_covg node_id sample_id) : Nat) : ℚ)
              * R.log (1 - g.binP))) := by
  refine ⟨?_, ?_, ?_, ?_⟩
  · intro h
    simp [KGC.bin_prob, h]
  · intro h hp
    simp [KGC.bin_prob, KGC.bin_prob2, h, hp]
  · intro e_rate hk h1 h2
    simp [KGC.set_binomial_parameter_p, hk, h1, h2]
  · intro h hp hlt
    simp [KGC.bin_prob, KGC.bin_prob2, h, hp, hlt, apply_ite Except.ok]

/-- A concrete interpretation of the abstracted real helpers. -/
def R0 : RealOps :=
  { log := fun q => q + 1
    exp := fun q => q
    lognchoosek2 := fun a b c => (a : ℚ) + 2 * b + 3 * c
    nbinLogPdf := fun _ _ c => (c : ℚ) }

/-- A three-node coverage state with `num_reads = 5`, `p = 1/4`, and node 1
carrying coverage `(2, 1)`. -/
def c3g : KGC :=
  { nodes := [⟨0, 0, [1], []⟩, ⟨1, 4, [2], [0]⟩, ⟨2, 0, [], [1]⟩]
    sortedNodes := [⟨0, 0, [1], []⟩, ⟨1, 4, [2], [0]⟩, ⟨2, 0, [], [1]⟩]
    covg := [[(0, 0)], [(2, 1)], [(0, 0)]]
    numReads := 5, k := 15, binP := 1 / 4, nbP := 0, nbR := 0, thresh := 0 }

/-- Witness for C3: on `c3g`, node 1 with coverage `(2,1)` and `s = 3 ≤ 5`
evaluates to `lognchoosek2(5,2,1) + 3·log(p/2) + 2·log(1−p)` which, under
`R0`, is `151/8`. -/
theorem claim_C3_bin_prob_witness :
    c3g.bin_prob R0 1 0 = .ok (151 / 8 : ℚ) := by
  have h := (claim_C3_bin_prob R0 c3g 1 0).2.2.2 (by decide) (by norm_num [c3g])
    (by decide)
  rw [h]
  refine congrArg Except.ok ?_
  norm_num [c3g, R0, KGC.get_forward_covg, KGC.get_reverse_covg, KGC.get_covg,
    dummyNodeC]

theorem except_bind_ok {ε α β : Type _} (a : α) (f : α → Except ε β) :
    (Except.ok a : Except ε α) >>= f = f a := rfl

theorem except_bind_error {ε α β : Type _} (e : ε) (f : α → Except ε β) :
    (Except.error e : Except ε α) >>= f = .error e := rfl

/-- Coverage state for exercising `prob_path` under the `"lin"` model:
node 0 (a sentinel, empty path) carries coverage `(1,0)`, node 2 carries
`(3,0)`, and one read was mapped. -/
def c5g : KGC :=
  { nodes := [⟨0, 0, [1], []⟩, ⟨1, 5, [2], [0]⟩, ⟨2, 0, [], [1]⟩]
    sortedNodes := [⟨0, 0, [1], []⟩, ⟨1, 5, [2], [0]⟩, ⟨2, 0, [], [1]⟩]
    covg := [[(1, 0)], [(0, 0)], [(3, 0)]]
    numReads := 1, k := 5, binP := 1, nbP := 0, nbR := 0, thresh := 0 }

/-- Counterexample to C5 as stated: on the singleton path holding only the
sentinel node 0, the `uint32_t` length `1` is decremented once for the first
node and once more for the (identical) last node, underflowing to
`2^32 − 1 = 4294967295`; `prob_path` divides by that instead of by the
spec's effective length `max(1−2, 1) = 1`, so the claimed identity fails. -/
theorem claim_C5_counterexample :
    c5g.prob_path R0 [⟨0, 0, [1], []⟩] 0 "lin" = .ok (2 / 4294967295 : ℚ) ∧
    (c5g.sum_probs R0 [⟨0, 0, [1], []⟩] 0 "lin").map
        (fun s => s / (spec_effective_len [⟨0, 0, [1], []⟩] : ℚ)) = .ok (2 : ℚ) ∧
    (2 / 4294967295 : ℚ) ≠ 2 := by
  refine ⟨?_, ?_, by norm_num⟩
  · norm_num [c5g, R0, KGC.prob_path, KGC.sum_probs, KGC.get_prob, KGC.lin_prob,
      KGC.get_forward_covg, KGC.get_reverse_covg, KGC.get_covg, code_path_len,
      sub_u32, List.foldlM, Except.map,
      (by decide : ("lin" : String) ≠ "nbin"), (by decide : ("lin" : String) ≠ "bin")]
  · norm_num [c5g, R0, KGC.sum_probs, KGC.get_prob, KGC.lin_prob,
      KGC.get_forward_covg, KGC.get_reverse_covg, KGC.get_covg,
      spec_effective_len, List.foldlM, Except.map,
      (by decide : ("lin" : String) ≠ "nbin"), (by decide : ("lin" : String) ≠ "bin")]

theorem code_len_eq_spec (kpath : List KmerNodeC) (h1 : kpath ≠ [])
    (h2 : kpath.length < 2 ^ 32)
    (h3 : kpath.length = 1 → (kpath.headD dummyNodeC).pathLen ≠ 0) :
    code_path_len kpath = spec_effective_len kpath := by
  have hn : 1 ≤ kpath.length := List.length_pos.mpr h1
  have hge : (kpath.headD dummyNodeC).pathLen = 0 → 2 ≤ kpath.length := by
    intro h0
    rcases Nat.lt_or_ge kpath.length 2 with hl | hl
    · have hone : kpath.length = 1 := by omega
      exact absurd h0 (h3 hone)
    · exact hl
  unfold code_path_len spec_effective_len sub_u32
  dsimp only
  split_ifs <;> omega

/-- **C5 (amended).** For every non-empty node path that is not a lone
sentinel (and whose length fits in `uint32_t`), `prob_path` equals the sum
of the nodes' `get_prob` values divided by the spec's effective length
(length minus one per sentinel endpoint, floored at 1).  For the lone
sentinel the unsigned length underflows instead (see the counterexample). -/
theorem claim_C5_prob_path (R : RealOps) (g : KGC) (kpath : List KmerNodeC)
    (sample_id : Nat) (model : String) (h1 : kpath ≠ [])
    (h2 : kpath.length < 2 ^ 32)
    (h3 : kpath.length = 1 → (kpath.headD dummyNodeC).pathLen ≠ 0) :
    g.prob_path R kpath sample_id model
      = (g.sum_probs R kpath sample_id model).map
          (fun s => s / (spec_effective_len kpath : ℚ)) := by
  unfold KGC.prob_path
  rw [code_len_eq_spec kpath h1 h2 h3]

/-- Witness for C5: a three-node path with sentinel endpoints on `c5g`
under the `"lin"` model has effective length 1 and mean `7`. -/
theorem claim_C5_prob_path_witness :
    c5g.prob_path R0 [⟨0, 0, [1], []⟩, ⟨1, 5, [2], [0]⟩, ⟨2, 0, [], [1]⟩] 0 "lin"
      = .ok (7 : ℚ) := by
  rw [claim_C5_prob_path R0 c5g _ 0 "lin" (by decide) (by decide) (by decide)]
  norm_num [c5g, R0, KGC.sum_probs, KGC.get_prob, KGC.lin_prob,
    KGC.get_forward_covg, KGC.get_reverse_covg, KGC.get_covg,
    spec_effective_len, List.foldlM, Except.map, except_bind_ok,
    (by decide : ("lin" : String) ≠ "nbin"), (by decide : ("lin" : String) ≠ "bin")]

/-! ## Part 3: `KmerGraphWithCoverage::find_max_path`
(`kmergraphwithcoverage.cpp:431-529`)

The dynamic program is modelled parametrically in a total per-node
log-probability function `P : ℕ → ℚ` standing for
`get_prob(prob_model, ·, sample_id)` (whose own failure modes are settled
with C3).  Float arithmetic is exact `ℚ` arithmetic; the division
`S[v]/L[v]` with `L[v] = 0` is a float `0/0 = NaN` whose comparisons are all
false, modelled by guarding each comparison with `L[v] ≠ 0`. -/

/-- The DP state: per-node-id suffix sums `S`, suffix lengths `L` and chosen
successors `prev`, plus the per-node loop variables `max_mean` and
`max_length`. -/
structure DPState where
  S : Nat → ℚ
  L : Nat → Nat
  prev : Nat → Nat
  maxMean : ℚ
  maxLength : Nat

/-- `const float tolerance = 0.000001`. -/
def tolerance : ℚ := 1 / 1000000

/-- Follow a successor function `k` times. -/
def iter_follow (f : Nat → Nat) : Nat → Nat → Nat
  | 0, x => x
  | k + 1, x => iter_follow f k (f x)

/-- The body of the inner loop of `find_max_path`
(`kmergraphwithcoverage.cpp:458-508`) for one considered out-node `vId` of
the current node `cId`: the three win conditions, the `S`/`L`/`prev` update,
the truncation once the suffix exceeds `max_num_kmers_to_average` (the C++
starts at `prev[c]` and then follows `prev` another `M` times, i.e. `M+1`
steps from `c`, and indexes `sorted_nodes` by the resulting node id), and the
`max_mean`/`max_length` update. -/
def process_succ (P : Nat → ℚ) (g : KGC) (M : Nat) (cId vId : Nat)
    (st : DPState) : DPState :=
  let sinkId := (g.sortedNodes.getLastD dummyNodeC).id
  let Sv := st.S vId
  let Lv := st.L vId
  if (vId = sinkId ∧ g.thresh > st.maxMean + tolerance) ∨
      (Lv ≠ 0 ∧ Sv / (Lv : ℚ) > st.maxMean + tolerance) ∨
      ((Lv ≠ 0 ∧ st.maxMean - Sv / (Lv : ℚ) ≤ tolerance) ∧ Lv > st.maxLength) then
    let prev1 : Nat → Nat := fun i => if i = cId then vId else st.prev i
    let needDrop := 1 + Lv > M
    let tailPos := iter_follow prev1 M (prev1 cId)
    let dropProb := P ((g.sortedNodes.getD tailPos dummyNodeC).id)
    let Sc := if needDrop then P cId + Sv - dropProb else P cId + Sv
    let Lc := if needDrop then (1 + Lv) - 1 else 1 + Lv
    let S2 : Nat → ℚ := fun i => if i = cId then Sc else st.S i
    let L2 : Nat → Nat := fun i => if i = cId then Lc else st.L i
    if vId ≠ sinkId then
      { S := S2, L := L2, prev := prev1,
        maxMean := S2 vId / (L2 vId : ℚ), maxLength := L2 vId }
    else
      { S := S2, L := L2, prev := prev1,
        maxMean := g.thresh, maxLength := st.maxLength }
  else st

/-- One iteration of the outer loop: reset `max_mean`/`max_length`, then walk
the out-nodes of the current node in order. -/
def process_node (P : Nat → ℚ) (g : KGC) (M : Nat) (st : DPState)
    (c : KmerNodeC) : DPState :=
  c.out_nodes.foldl (fun s v => process_succ P g M c.id v s)
    { st with maxMean := lowestFloat, maxLength := 0 }

/-- The DP vectors as initialised at `kmergraphwithcoverage.cpp:446-449`:
sums and lengths zero, `prev` everywhere the terminus index. -/
def dp_init (n : Nat) : DPState :=
  { S := fun _ => 0, L := fun _ => 0, prev := fun _ => n - 1,
    maxMean := lowestFloat, maxLength := 0 }

/-- The full reverse-topological scan: `j` runs from `size-1` down to `1`
processing `sorted_nodes[j-1]`, i.e. every sorted position except the last,
in reverse order. -/
def run_dp (P : Nat → ℚ) (g : KGC) (M : Nat) : DPState :=
  (g.sortedNodes.dropLast.reverse).foldl (process_node P g M)
    (dp_init g.sortedNodes.length)

/-- Outcomes of `find_max_path` other than a path: the `kmer_prg->check()`
fatal error, the `> 10^6`-step reconstruction guard, and the `NoPath` fatal
error (`kmergraphwithcoverage.cpp:523-526`). -/
inductive FMErr where
  | checkFailed
  | infiniteLoop
  | noPath
  deriving DecidableEq

/-- The path-reconstruction loop (`kmergraphwithcoverage.cpp:512-521`):
follow `prev` from the source until the terminus index, collecting node
indices, guarded by the `10^6` step bound (modelled as fuel). -/
def extract_go (prevF : Nat → Nat) (n : Nat) :
    Nat → Nat → List Nat → Except FMErr (List Nat)
  | 0, cur, acc => if cur < n - 1 then .error .infiniteLoop else .ok acc
  | fuel + 1, cur, acc =>
    if cur < n - 1 then extract_go prevF n fuel (prevF cur) (acc ++ [cur])
    else .ok acc

/-- Modelled from the spec: `KmerGraph::check()` of the coverage-augmented
graph class is declared outside `src/`; per spec §3/§4.D (and the older
`kmergraph.cpp:122-134`) it verifies that every non-source node has at least
one in-edge and every non-sink node at least one out-edge, terminating on
violation. -/
def KGC.check (g : KGC) : Bool :=
  g.nodes.all (fun c =>
    (c.in_nodes.length > 0 || c.id == 0) &&
    (c.out_nodes.length > 0 || c.id == g.nodes.length - 1))

/-- The final score: `prob_path` over the reconstructed index path, with the
per-node probabilities given by `P` (see the part header). -/
def prob_path_core (P : Nat → ℚ) (g : KGC) (maxpath : List Nat) : ℚ :=
  let nodesOnPath := maxpath.map (fun i => g.nodes.getD i dummyNodeC)
  (nodesOnPath.map (fun nd => P nd.id)).sum / (code_path_len nodesOnPath : ℚ)

/-- `KmerGraphWithCoverage::find_max_path` (`kmergraphwithcoverage.cpp:431-529`):
graph check, the all-zero-coverage short circuit returning
`numeric_limits<float>::lowest()` with the out-path untouched, the DP, path
reconstruction, the `NoPath` fatal error when `L[0] == 0`, and otherwise the
`prob_path` score with the path. -/
def KGC.find_max_path (P : Nat → ℚ) (g : KGC) (M sample_id : Nat) :
    Except FMErr (ℚ × List Nat) :=
  if ¬ g.check then .error .checkFailed
  else if g.coverage_is_zeroes sample_id then .ok (lowestFloat, [])
  else
    let st := run_dp P g M
    let n := g.sortedNodes.length
    match extract_go st.prev n 1000000 (st.prev (g.sortedNodes.headD dummyNodeC).id) [] with
    | .error e => .error e
    | .ok maxpath =>
      if st.L 0 = 0 then .error .noPath
      else .ok (prob_path_core P g maxpath, maxpath)

/-- Modelled from the spec: the claim's truncation step — identical to
`process_succ` except that the dropped node is the one `M` steps back from
the current node along the chosen-successor chain (`prev[c]` followed `M-1`
further times), whose probability is among those summed in `S[c]`. -/
def spec_process_succ (P : Nat → ℚ) (g : KGC) (M : Nat) (cId vId : Nat)
    (st : DPState) : DPState :=
  let sinkId := (g.sortedNodes.getLastD dummyNodeC).id
  let Sv := st.S vId
  let Lv := st.L vId
  if (vId = sinkId ∧ g.thresh > st.maxMean + tolerance) ∨
      (Lv ≠ 0 ∧ Sv / (Lv : ℚ) > st.maxMean + tolerance) ∨
      ((Lv ≠ 0 ∧ st.maxMean - Sv / (Lv : ℚ) ≤ tolerance) ∧ Lv > st.maxLength) then
    let prev1 : Nat → Nat := fun i => if i = cId then vId else st.prev i
    let needDrop := 1 + Lv > M
    let tailPos := iter_follow prev1 (M - 1) (prev1 cId)
    let dropProb := P ((g.sortedNodes.getD tailPos dummyNodeC).id)
    let Sc := if needDrop then P cId + Sv - dropProb else P cId + Sv
    let Lc := if needDrop then (1 + Lv) - 1 else 1 + Lv
    let S2 : Nat → ℚ := fun i => if i = cId then Sc else st.S i
    let L2 : Nat → Nat := fun i => if i = cId then Lc else st.L i
    if vId ≠ sinkId then
      { S := S2, L := L2, prev := prev1,
        maxMean := S2 vId / (L2 vId : ℚ), maxLength := L2 vId }
    else
      { S := S2, L := L2, prev := prev1,
        maxMean := g.thresh, maxLength := st.maxLength }
  else st

/-- The DP scan with the claim's truncation step. -/
def spec_run_dp (P : Nat → ℚ) (g : KGC) (M : Nat) : DPState :=
  (g.sortedNodes.dropLast.reverse).foldl
    (fun st c => c.out_nodes.foldl (fun s v => spec_process_succ P g M c.id v s)
      { st with maxMean := lowestFloat, maxLength := 0 })
    (dp_init g.sortedNodes.length)

/-! ### The `NoPath` reasoning for C2 -/

/-- The invariant connecting the DP vectors: a node whose suffix length is
still `0` has never won, so its `prev` entry still holds the initialisation
value `size - 1`. -/
def DPInv (n : Nat) (st : DPState) : Prop :=
  ∀ c, st.L c = 0 → st.prev c = n - 1

theorem process_succ_L_prev (P : Nat → ℚ) (g : KGC) (M : Nat) (cId vId : Nat)
    (st : DPState) (hM : 1 ≤ M) :
    ((process_succ P g M cId vId st).L = st.L ∧
      (process_succ P g M cId vId st).prev = st.prev) ∨
    ((∀ i, i ≠ cId → (process_succ P g M cId vId st).L i = st.L i ∧
        (process_succ P g M cId vId st).prev i = st.prev i) ∧
      (process_succ P g M cId vId st).L cId ≠ 0) := by
  unfold process_succ
  dsimp only
  split
  · right
    constructor
    · intro i hi
      constructor <;> split <;> dsimp only <;> simp only [if_neg hi]
    · split <;>
      · dsimp only
        rw [if_pos rfl]
        split <;> omega
  · left
    exact ⟨rfl, rfl⟩

theorem process_succ_inv (P : Nat → ℚ) (g : KGC) (M : Nat) (cId vId : Nat)
    (st : DPState) (hM : 1 ≤ M) (n : Nat) (h : DPInv n st) :
    DPInv n (process_succ P g M cId vId st) := by
  rcases process_succ_L_prev P g M cId vId st hM with ⟨hL, hp⟩ | ⟨hother, hc⟩
  · intro i hLi
    rw [hp]
    exact h i (by rw [← hL]; exact hLi)
  · intro i hLi
    by_cases hic : i = cId
    · subst hic
      exact absurd hLi hc
    · rw [(hother i hic).2]
      exact h i ((hother i hic).1 ▸ hLi)

theorem foldl_preserve {α σ : Type _} (Inv : σ → Prop) (f : σ → α → σ)
    (hf : ∀ s a, Inv s → Inv (f s a)) :
    ∀ (l : List α) (s : σ), Inv s → Inv (l.foldl f s)
  | [], _, h => h
  | a :: l, s, h => foldl_preserve Inv f hf l (f s a) (hf s a h)

theorem run_dp_inv (P : Nat → ℚ) (g : KGC) (M : Nat) (hM : 1 ≤ M) :
    DPInv g.sortedNodes.length (run_dp P g M) := by
  unfold run_dp
  refine foldl_preserve (DPInv g.sortedNodes.length) (process_node P g M) ?_ _ _ ?_
  · intro st c hst
    unfold process_node
    refine foldl_preserve (DPInv g.sortedNodes.length) _ ?_ _ _ ?_
    · intro s v hs
      exact process_succ_inv P g M c.id v s hM _ hs
    · exact hst
  · intro c h
    rfl

theorem extract_go_stop (prevF : Nat → Nat) (n fuel cur : Nat) (acc : List Nat)
    (h : ¬ cur < n - 1) : extract_go prevF n fuel cur acc = .ok acc := by
  cases fuel <;> simp [extract_go, h]

/-- A three-node chain with coverage on the middle node but a threshold at
`lowest_float`, so that no candidate ever wins and the DP finds no path. -/
def c2g : KGC :=
  { nodes := [⟨0, 0, [1], []⟩, ⟨1, 3, [2], [0]⟩, ⟨2, 0, [], [1]⟩]
    sortedNodes := [⟨0, 0, [1], []⟩, ⟨1, 3, [2], [0]⟩, ⟨2, 0, [], [1]⟩]
    covg := [[(0, 0)], [(1, 0)], [(0, 0)]]
    numReads := 1, k := 3, binP := 1, nbP := 0, nbR := 0,
    thresh := lowestFloat }

/-- The same chain with all-zero coverage. -/
def c2zg : KGC :=
  { c2g with covg := [[(0, 0)], [(0, 0)], [(0, 0)]], thresh := -1 }

/-- A constant per-node log-probability. -/
def P2 : Nat → ℚ := fun _ => -1

/-- Counterexample to C2 as stated: `c2g` has non-zero coverage, passes the
graph check, and its DP finds no path (`L[0] = 0`, the `NoPath` case); the
claim says `find_max_path` then returns the sentinel score and empty path
without terminating, but the code raises the `NoPath` fatal error instead. -/
theorem claim_C2_counterexample :
    c2g.coverage_is_zeroes 0 = false ∧
    KGC.find_max_path P2 c2g 2 0 = .error .noPath := by
  constructor
  · norm_num [KGC.coverage_is_zeroes, KGC.get_forward_covg, KGC.get_reverse_covg,
      KGC.get_covg, c2g]
  · norm_num [KGC.find_max_path, KGC.check, KGC.coverage_is_zeroes,
      KGC.get_forward_covg, KGC.get_reverse_covg, KGC.get_covg, c2g, run_dp,
      process_node, process_succ, dp_init, lowestFloat, tolerance,
      extract_go_stop]

/-- **C2 (amended).** On a graph passing `check` (with the source heading
`sorted_nodes`): if `coverage_is_zeroes(sample_id)` holds, `find_max_path`
returns the sentinel score `lowest_float` and an empty path without running
the DP and without terminating; but when coverage is non-zero and the DP
finds no path (`L[0] == 0`), `find_max_path` raises the `NoPath` fatal
error (terminating per the propagation policy) rather than returning the
sentinel. -/
theorem claim_C2_find_max_path (P : Nat → ℚ) (g : KGC) (M sample_id : Nat)
    (hM : 1 ≤ M) (hchk : g.check = true)
    (hs0 : (g.sortedNodes.headD dummyNodeC).id = 0) :
    (g.coverage_is_zeroes sample_id = true →
      KGC.find_max_path P g M sample_id = .ok (lowestFloat, [])) ∧
    ((run_dp P g M).L 0 = 0 → g.coverage_is_zeroes sample_id = false →
      KGC.find_max_path P g M sample_id = .error .noPath) := by
  constructor
  · intro hz
    simp [KGC.find_max_path, hchk, hz]
  · intro hL0 hz
    have hprev : (run_dp P g M).prev 0 = g.sortedNodes.length - 1 :=
      run_dp_inv P g M hM 0 hL0
    unfold KGC.find_max_path
    dsimp only
    rw [hs0, hprev]
    have hext := extract_go_stop (run_dp P g M).prev g.sortedNodes.length 1000000
      (g.sortedNodes.length - 1) [] (by omega)
    rw [hext]
    simp [hchk, hz, hL0]

/-- Witness for C2 on the all-zero-coverage chain `c2zg`. -/
theorem claim_C2_find_max_path_witness :
    KGC.find_max_path P2 c2zg 2 0 = .ok (lowestFloat, []) := by
  refine (claim_C2_find_max_path P2 c2zg 2 0 (by decide) ?_ (by decide)).1 ?_
  · decide
  · decide

/-! ### The truncation off-by-one for C1 -/

/-- Log-probabilities for the C1 chain: `0` at the source, `-1,-2,-4,-8` on
the interior nodes, `-57` at the sink (as under the `"lin"`/`"nbin"` models,
where sentinel nodes do not score `0`). -/
def P1 : Nat → ℚ := fun n => [0, -1, -2, -4, -8, -57].getD n 0

/-- The six-node chain `0 → 1 → 2 → 3 → 4 → 5` (0 source, 5 sink). -/
def c1g : KGC :=
  { nodes := [⟨0, 0, [1], []⟩, ⟨1, 3, [2], [0]⟩, ⟨2, 3, [3], [1]⟩,
      ⟨3, 3, [4], [2]⟩, ⟨4, 3, [5], [3]⟩, ⟨5, 0, [], [4]⟩]
    sortedNodes := [⟨0, 0, [1], []⟩, ⟨1, 3, [2], [0]⟩, ⟨2, 3, [3], [1]⟩,
      ⟨3, 3, [4], [2]⟩, ⟨4, 3, [5], [3]⟩, ⟨5, 0, [], [4]⟩]
    covg := [[(0, 0)], [(1, 0)], [(1, 0)], [(1, 0)], [(1, 0)], [(0, 0)]]
    numReads := 1, k := 3, binP := 1, nbP := 0, nbR := 0, thresh := -1 }

/-- **C1.** On the chain `c1g` with `M = 2`, when node 2 wins through node 3
its suffix grows to length 3 and must be truncated: the claim (and the
intent, `S` being the sum over the kept window `{2, 3}`) drops the node `M`
steps back along the chain — node 4, prob `-8` — leaving `S[2] = -6`; the
code instead follows the chain `M+1` steps to node 5, the sink, and
subtracts its probability `-57`, which was never part of `S[2]`, leaving
`S[2] = 43`.  Both runs report the window length `L[2] = M`, which is all
the in-code assert checks. -/
theorem claim_C1_truncation :
    (run_dp P1 c1g 2).S 2 = 43 ∧ (run_dp P1 c1g 2).L 2 = 2 ∧
    (spec_run_dp P1 c1g 2).S 2 = -6 ∧ (spec_run_dp P1 c1g 2).L 2 = 2 ∧
    ((43 : ℚ) ≠ -6) := by
  refine ⟨?_, ?_, ?_, ?_, by norm_num⟩ <;>
    norm_num [run_dp, spec_run_dp, process_node, process_succ, spec_process_succ,
      dp_init, iter_follow, c1g, P1, tolerance, lowestFloat]

/-! ## Part 4: the node-id handling of `KmerGraphWithCoverage::load`
(`kmergraphwithcoverage.cpp:641-793`)

The claim concerns the S-line id sequence, so the model isolates exactly
that logic: `num_nodes` is the maximum S-line id (first pass); during ingest
each id must satisfy `id == nodes.size() || num_nodes - id == nodes.size()`
(unsigned subtraction, but `id ≤ num_nodes` always); after ingest the node
vector is reversed when the last parsed id was `0`; finally every node must
sit at the index equal to its id and be within the edge-count bounds
(`id < num_nodes + 1`).  Any violated check is a `fatal_error`, i.e.
`none`.  Orthogonal failure modes of `load` (malformed lines, bad path
fields) are not in the claim's scope. -/

/-- The per-S-line id consistency check of the ingest pass
(`kmergraphwithcoverage.cpp:703-709`), walking the ids with the running
node-vector size `j`. -/
def gfa_pass (num_nodes : Nat) : List Nat → Nat → Bool
  | [], _ => true
  | idv :: rest, j => (idv == j || num_nodes - idv == j) && gfa_pass num_nodes rest (j + 1)

/-- The id bookkeeping of `KmerGraphWithCoverage::load`: returns the final
node-id order (ids listed by node-vector index), or `none` when one of the
fatal checks fires. -/
def load_ids (ids : List Nat) : Option (List Nat) :=
  let num_nodes := ids.foldl max 0
  if gfa_pass num_nodes ids 0 then
    let ordered := if ids.getLastD 0 = 0 then ids.reverse else ids
    if ordered = List.range ids.length ∧ ∀ i ∈ ordered, i < num_nodes + 1 then
      some ordered
    else none
  else none

theorem gfa_pass_asc (m : Nat) :
    ∀ (l : List Nat) (j : Nat), (∀ i (h : i < l.length), l.get ⟨i, h⟩ = j + i) →
    gfa_pass m l j = true
  | [], _, _ => rfl
  | x :: rest, j, h => by
    have hx : x = j := by simpa using h 0 (by simp)
    have hrest : ∀ i (hi : i < rest.length), rest.get ⟨i, hi⟩ = (j + 1) + i := by
      intro i hi
      have := h (i + 1) (by simpa using Nat.succ_lt_succ hi)
      simpa [Nat.add_assoc, Nat.add_comm 1 i] using this
    simp [gfa_pass, hx, gfa_pass_asc m rest (j + 1) hrest]

theorem gfa_pass_desc (m : Nat) :
    ∀ (l : List Nat) (j : Nat),
    (∀ i (h : i < l.length), l.get ⟨i, h⟩ = m - (j + i) ∧ j + i ≤ m) →
    gfa_pass m l j = true
  | [], _, _ => rfl
  | x :: rest, j, h => by
    have hx := h 0 (by simp)
    have hrest : ∀ i (hi : i < rest.length),
        rest.get ⟨i, hi⟩ = m - ((j + 1) + i) ∧ (j + 1) + i ≤ m := by
      intro i hi
      have := h (i + 1) (by simpa using Nat.succ_lt_succ hi)
      constructor
      · have h1 := this.1
        simp only [List.get] at h1 ⊢
        rw [h1]
        omega
      · omega
    have hxj : m - x = j := by
      have h1 : x = m - (j + 0) := hx.1
      have h2 : j + 0 ≤ m := hx.2
      omega
    simp [gfa_pass, hxj, gfa_pass_desc m rest (j + 1) hrest]

theorem foldl_max_le_of (a : Nat) :
    ∀ (l : List Nat) (b : Nat), b ≤ a → (∀ x ∈ l, x ≤ a) → l.foldl max b ≤ a
  | [], _, hb, _ => hb
  | x :: rest, b, hb, h => by
    refine foldl_max_le_of a rest (max b x) ?_ ?_
    · exact max_le hb (h x (by simp))
    · intro y hy
      exact h y (by simp [hy])

theorem le_foldl_max (b : Nat) :
    ∀ (l : List Nat), b ≤ l.foldl max b
  | [] => le_refl b
  | x :: rest => le_trans (le_max_left b x) (le_foldl_max (max b x) rest)

theorem mem_le_foldl_max (a : Nat) :
    ∀ (l : List Nat) (b : Nat), a ∈ l → a ≤ l.foldl max b
  | [], _, h => absurd h (by simp)
  | x :: rest, b, h => by
    rcases List.mem_cons.mp h with hx | hmem
    · subst hx
      exact le_trans (le_max_right b a) (le_foldl_max (max b a) rest)
    · exact mem_le_foldl_max a rest (max b x) hmem

theorem foldl_max_eq (l : List Nat) (a : Nat) (hmem : a ∈ l)
    (hbd : ∀ x ∈ l, x ≤ a) : l.foldl max 0 = a :=
  le_antisymm (foldl_max_le_of a l 0 (Nat.zero_le a) hbd) (mem_le_foldl_max a l 0 hmem)

theorem foldl_max_range (n : Nat) (hn : 1 ≤ n) :
    (List.range n).foldl max 0 = n - 1 := by
  refine foldl_max_eq _ _ ?_ ?_
  · exact List.mem_range.mpr (by omega)
  · intro x hx
    have := List.mem_range.mp hx
    omega

theorem foldl_max_range_reverse (n : Nat) (hn : 1 ≤ n) :
    (List.range n).reverse.foldl max 0 = n - 1 := by
  refine foldl_max_eq _ _ ?_ ?_
  · exact List.mem_reverse.mpr (List.mem_range.mpr (by omega))
  · intro x hx
    have := List.mem_range.mp (List.mem_reverse.mp hx)
    omega

theorem load_ids_asc : ∀ n : Nat, load_ids (List.range n) = some (List.range n) := by
  intro n
  match n with
  | 0 => decide
  | 1 => decide
  | k + 2 =>
    have hm := foldl_max_range (k + 2) (by omega)
    have hpass : gfa_pass ((List.range (k + 2)).foldl max 0) (List.range (k + 2)) 0
        = true := by
      refine gfa_pass_asc _ _ 0 ?_
      intro i h
      simp [List.get_eq_getElem, List.getElem_range]
    have hlast : (List.range (k + 2)).getLastD 0 = k + 1 := by
      rw [List.range_succ, List.getLastD_concat]
    have hbound : ∀ i ∈ List.range (k + 2), i < (List.range (k + 2)).foldl max 0 + 1 := by
      intro i hi
      rw [hm]
      have := List.mem_range.mp hi
      omega
    unfold load_ids
    dsimp only
    rw [hpass, if_pos rfl, hlast, if_neg (show ¬ k + 1 = 0 by omega),
      List.length_range, if_pos ⟨rfl, hbound⟩]

theorem load_ids_desc : ∀ n : Nat,
    load_ids ((List.range n).reverse) = some (List.range n) := by
  intro n
  match n with
  | 0 => decide
  | 1 => decide
  | k + 2 =>
    have hm := foldl_max_range_reverse (k + 2) (by omega)
    have hpass : gfa_pass ((List.range (k + 2)).reverse.foldl max 0)
        ((List.range (k + 2)).reverse) 0 = true := by
      refine gfa_pass_desc _ _ 0 ?_
      intro i h
      have hi : i < k + 2 := by simpa using h
      have hget : (List.range (k + 2)).reverse.get ⟨i, h⟩ = k + 1 - i := by
        simp [List.get_eq_getElem, List.getElem_reverse, List.getElem_range]
      rw [hm, hget]
      omega
    have hlast : (List.range (k + 2)).reverse.getLastD 0 = 0 := by
      rw [List.getLastD_eq_getLast?, List.getLast?_reverse, List.range_succ_eq_map]
      rfl
    have hbound : ∀ i ∈ List.range (k + 2),
        i < (List.range (k + 2)).reverse.foldl max 0 + 1 := by
      intro i hi
      rw [hm]
      have := List.mem_range.mp hi
      omega
    unfold load_ids
    dsimp only
    rw [hpass, if_pos rfl, hlast, if_pos rfl, List.reverse_reverse,
      List.length_reverse, List.length_range, if_pos ⟨rfl, hbound⟩]

theorem load_ids_some (ids : List Nat) (out : List Nat)
    (h : load_ids ids = some out) :
    out = List.range ids.length ∧
    (ids = List.range ids.length ∨ ids = (List.range ids.length).reverse) := by
  unfold load_ids at h
  dsimp only at h
  cases hb : gfa_pass (ids.foldl max 0) ids 0 with
  | false =>
    rw [hb] at h
    simp at h
  | true =>
    rw [hb, if_pos rfl] at h
    by_cases hl : ids.getLastD 0 = 0
    · rw [if_pos hl] at h
      by_cases hc : ids.reverse = List.range ids.length ∧
          ∀ i ∈ ids.reverse, i < ids.foldl max 0 + 1
      · rw [if_pos hc] at h
        have hout : out = ids.reverse := (Option.some_inj.mp h).symm
        refine ⟨hout.trans hc.1, Or.inr ?_⟩
        rw [← hc.1, List.reverse_reverse]
      · rw [if_neg hc] at h
        simp at h
    · rw [if_neg hl] at h
      by_cases hc : ids = List.range ids.length ∧
          ∀ i ∈ ids, i < ids.foldl max 0 + 1
      · rw [if_pos hc] at h
        exact ⟨(Option.some_inj.mp h).symm.trans hc.1, Or.inl hc.1⟩
      · rw [if_neg hc] at h
        simp at h

/-- **C9.** The id bookkeeping of `KmerGraphWithCoverage::load` succeeds
exactly on S-line id sequences that are consecutive ascending from 0 or
consecutive descending to 0, and in both cases the loaded node vector has
the node of id `i` at index `i` (the descending file being reversed); any
other id sequence trips one of the load's fatal checks. -/
theorem claim_C9_load_node_order (ids : List Nat) :
    load_ids ids =
      if ids = List.range ids.length ∨ ids = (List.range ids.length).reverse
      then some (List.range ids.length) else none := by
  by_cases hpat : ids = List.range ids.length ∨ ids = (List.range ids.length).reverse
  · rw [if_pos hpat]
    rcases hpat with h | h
    · conv_lhs => rw [h]
      exact load_ids_asc ids.length
    · conv_lhs => rw [h]
      exact load_ids_desc ids.length
  · rw [if_neg hpat]
    cases heq : load_ids ids with
    | none => rfl
    | some out => exact absurd (load_ids_some ids out heq).2 hpat
